import Mathlib

/-!
# Verification of the seedance video-generation server

Shallow embedding of the parts of the repository relevant to the frozen
claims: the credential/session normalizer, the platform HTTP request
client with its retry policy, the AWS-SigV4-style signature builder, the
task registry with its polling endpoint and periodic sweep, and the
browser session pool with its crash-recovery retry and per-key execution
lock.

Strings are modelled as Lean `String`s; the JavaScript string operations
used by the source (`trim`, `includes`, `indexOf`, `slice`, `split`,
`toLowerCase`, `toUpperCase`) are defined below over `List Char`,
restricted to the character sets the source actually manipulates.
-/

namespace Seedance

/-- The whitespace set recognised by JavaScript `String.prototype.trim`
and the `\s` regex class (WhiteSpace ∪ LineTerminator). -/
def isJsWs (c : Char) : Bool :=
  let n := c.toNat
  n = 0x20 || n = 0x9 || n = 0xa || n = 0xb || n = 0xc || n = 0xd ||
  n = 0xa0 || n = 0x1680 || (0x2000 <= n && n <= 0x200a) ||
  n = 0x2028 || n = 0x2029 || n = 0x202f || n = 0x205f ||
  n = 0x3000 || n = 0xfeff

/-- JavaScript line terminators (the characters regex dot does not match). -/
def isJsLineTerm (c : Char) : Bool :=
  let n := c.toNat
  n = 0xa || n = 0xd || n = 0x2028 || n = 0x2029

def jsTrimList (cs : List Char) : List Char :=
  ((cs.dropWhile isJsWs).reverse.dropWhile isJsWs).reverse

/-- JavaScript `s.trim()`. -/
def jsTrim (s : String) : String :=
  String.mk (jsTrimList s.toList)

/-- Whether `pat` occurs as a contiguous infix of `hay`
(JavaScript `hay.includes(pat)`). -/
def hasInfix (pat : List Char) : List Char → Bool
  | [] => pat.isPrefixOf ([] : List Char)
  | c :: t => pat.isPrefixOf (c :: t) || hasInfix pat t

/-- JavaScript `s.includes(pat)`. -/
def jsIncludes (s pat : String) : Bool :=
  hasInfix pat.toList s.toList

/-- ASCII lower-casing of one character (the source only lower-cases
ASCII header names, status codes and error messages). -/
def asciiLower (c : Char) : Char :=
  if 'A' ≤ c ∧ c ≤ 'Z' then Char.ofNat (c.toNat + 32) else c

/-- ASCII upper-casing of one character. -/
def asciiUpper (c : Char) : Char :=
  if 'a' ≤ c ∧ c ≤ 'z' then Char.ofNat (c.toNat - 32) else c

/-- JavaScript `s.toLowerCase()` restricted to ASCII. -/
def jsToLower (s : String) : String :=
  String.mk (s.toList.map asciiLower)

/-- JavaScript `s.toUpperCase()` restricted to ASCII. -/
def jsToUpper (s : String) : String :=
  String.mk (s.toList.map asciiUpper)

/-- Index of the first occurrence of character `c`, or `none`
(JavaScript `s.indexOf(c)` returning `-1` is modelled as `none`). -/
def jsIndexOfChar (cs : List Char) (c : Char) : Option Nat :=
  match cs with
  | [] => none
  | x :: t => if x = c then some 0 else (jsIndexOfChar t c).map (· + 1)

/-- Split a character list on every character satisfying `p`; splitting
on a regex class such as `/[\n;]+/` is the same as this followed by
discarding empty pieces, which every caller in the source does. -/
def splitOnPred (p : Char → Bool) : List Char → List (List Char)
  | [] => [[]]
  | c :: t =>
    let rest := splitOnPred p t
    if p c then [] :: rest
    else match rest with
      | [] => [[c]]
      | h :: r => (c :: h) :: r

/-! ## Auth/Session normalizer (src/unnamed/part_003, lines 89–170) -/

/-- `SESSION_TOKEN_COOKIE_KEYS[platformKey]`: the platform-specific
ordered candidate cookie-name lists; lookup of an unknown key falls back
to the `jimeng` (default platform) list, mirroring
`SESSION_TOKEN_COOKIE_KEYS[platformKey] || SESSION_TOKEN_COOKIE_KEYS[DEFAULT_PLATFORM_KEY]`. -/
def SESSION_TOKEN_COOKIE_KEYS (platformKey : String) : List String :=
  if platformKey = "xyq" then
    ["sessionid_pippitcn_web", "sessionid_ss_pippitcn_web", "sid_tt_pippitcn_web",
     "sessionid", "sessionid_ss", "sid_tt"]
  else
    ["sessionid", "sessionid_ss", "sid_tt",
     "sessionid_pippitcn_web", "sessionid_ss_pippitcn_web", "sid_tt_pippitcn_web"]

/-- JavaScript `Map.set`: overwrite in place if the key exists,
otherwise append (insertion order preserved). -/
def mapSet (m : List (String × String)) (k v : String) : List (String × String) :=
  match m with
  | [] => [(k, v)]
  | (k', v') :: t => if k' = k then (k, v) :: t else (k', v') :: mapSet t k v

/-- JavaScript `Map.get`: the value stored under `k`, if any. -/
def mapGet (m : List (String × String)) (k : String) : Option String :=
  match m with
  | [] => none
  | (k', v) :: t => if k' = k then some v else mapGet t k

/-- One iteration of the `parseCookieString` fragment loop: find the
first `=` (falling back to the first `:` when `=` is absent or at
position 0), split, trim both sides, and store when both are nonempty. -/
def cookieFragmentStep (m : List (String × String)) (rawFragment : List Char) :
    List (String × String) :=
  let fragment := jsTrimList rawFragment
  if fragment.isEmpty then m
  else
    let eqIdx := jsIndexOfChar fragment '='
    let sepIdx :=
      match eqIdx with
      | some i => if i = 0 then jsIndexOfChar fragment ':' else some i
      | none => jsIndexOfChar fragment ':'
    match sepIdx with
    | none => m
    | some i =>
      if i = 0 then m
      else
        let key := jsTrim (String.mk (fragment.take i))
        let value := jsTrim (String.mk (fragment.drop (i + 1)))
        if key ≠ "" ∧ value ≠ "" then mapSet m key value else m

/-- `parseCookieString(rawCookie)`: split on `/[\n;]+/` and accumulate
`key=value` (or `key:value`) fragments into a JS `Map`. -/
def parseCookieString (rawCookie : String) : List (String × String) :=
  (splitOnPred (fun c => c = '\n' || c = ';') rawCookie.toList).foldl
    cookieFragmentStep []

/-- The capture group of `trimmed.match(/^[a-zA-Z0-9_]+:(.+)$/)`:
a nonempty word-character prefix, a `:`, then a nonempty remainder free
of line terminators. -/
def isWordChar (c : Char) : Bool :=
  ('a' ≤ c && c ≤ 'z') || ('A' ≤ c && c ≤ 'Z') || ('0' ≤ c && c ≤ '9') || c = '_'

def colonCapture (s : String) : Option String :=
  let cs := s.toList
  let pre := cs.takeWhile isWordChar
  match cs.drop pre.length with
  | ':' :: tail =>
    if !pre.isEmpty && !tail.isEmpty && tail.all (fun c => !isJsLineTerm c) then
      some (String.mk tail)
    else none
  | _ => none

/-- The first candidate cookie key whose stored value is truthy
(the `for (const cookieKey of candidateKeys)` loop). -/
def firstCandidateToken (m : List (String × String)) : List String → Option String
  | [] => none
  | k :: rest =>
    match mapGet m k with
    | some v => if v ≠ "" then some v else firstCandidateToken m rest
    | none => firstCandidateToken m rest

/-- `normalizeSessionInput(platformKey, rawInput)` from
src/unnamed/part_003 lines 133–170. `rawInput` is modelled as a string
(the `typeof rawInput !== 'string'` guard is outside the model). -/
def normalizeSessionInput (platformKey rawInput : String) : String :=
  let trimmed := jsTrim rawInput
  if trimmed = "" then ""
  else
    match colonCapture trimmed with
    | some captured => jsTrim captured
    | none =>
      if !jsIncludes trimmed "=" then trimmed
      else
        let cookieMap := parseCookieString trimmed
        let candidateKeys := SESSION_TOKEN_COOKIE_KEYS platformKey
        match firstCandidateToken cookieMap candidateKeys with
        | some token => token
        | none =>
          if !jsIncludes trimmed ";" then
            match jsIndexOfChar trimmed.toList '=' with
            | some i =>
              if i > 0 then
                let value := jsTrim (String.mk (trimmed.toList.drop (i + 1)))
                if value ≠ "" then value else ""
              else ""
            | none => ""
          else ""

/-! ## Platform request client (src/unnamed/part_003, lines 259–510)

`platformRequest` issues up to 4 HTTP attempts.  The network and the
vendor are modelled as a list of per-attempt outcomes supplied by the
environment: attempt `i` consumes the `i`-th list entry.  A JSON body is
modelled pre-parsed (`JSON.parse` itself is outside the model): `ret` is
the numeric business-status field when present and finite, `errmsg` the
optional message, `data` the opaque payload. -/

structure PlatformConfig where
  key : String
  name : String
  baseUrl : String
deriving DecidableEq, Repr

def jimengConfig : PlatformConfig :=
  ⟨"jimeng", "即梦", "https://jimeng.jianying.com"⟩

def xyqConfig : PlatformConfig :=
  ⟨"xyq", "小云雀", "https://xyq.jianying.com"⟩

/-- `previewResponseBody`: collapse whitespace runs to single spaces,
trim, truncate to 120 characters. -/
def collapseWsGo : Bool → List Char → List Char
  | _, [] => []
  | prevWs, c :: t =>
    if isJsWs c then
      if prevWs then collapseWsGo true t else ' ' :: collapseWsGo true t
    else c :: collapseWsGo false t

def collapseWsRuns (cs : List Char) : List Char :=
  collapseWsGo false cs

def previewResponseBody (responseText : String) : String :=
  String.mk ((jsTrimList (collapseWsRuns responseText.toList)).take 120)

/-- `looksLikeHtml(responseText, contentType)`. -/
def looksLikeHtml (responseText contentType : String) : Bool :=
  jsIncludes (jsToLower contentType) "text/html" ||
  (let normalizedBody := String.mk ((responseText.toList.take 200).map asciiLower)
   jsIncludes normalizedBody "<!doctype html" || jsIncludes normalizedBody "<html")

/-- The fields of a parsed JSON response body that `platformRequest`
reads: `data.ret` (numeric, when present), `data.errmsg`, `data.data`. -/
structure JsonBody where
  ret : Option Int
  errmsg : Option String
  data : Option String
deriving DecidableEq, Repr

/-- One HTTP attempt's outcome, as supplied by the environment:
either the `fetch` promise rejected (timeout, connection reset), or a
response arrived with the given status, content type, body text, and —
when the body is valid JSON — its parsed form. -/
inductive HttpAttempt where
  | transportError (msg : String)
  | response (status : Nat) (contentType : String) (bodyText : String)
      (parsed : Option JsonBody)
deriving DecidableEq, Repr

/-- The classified errors `platformRequest` can throw.  `isApiError`
records whether the thrown `Error` object carried the
`isApiError: true` marker consulted by the retry loop; note the source
throws the `ret=5000` (insufficient balance) error as a plain
`new Error(...)` without that marker. -/
inductive PRErrorKind where
  | authHtml (platformKey : String)
  | nonJson (status : Nat) (preview : String)
  | loginRequired (platformKey : String)
  | insufficientBalance (platformKey : String)
  | genericApi (ret : String) (errMsg : String)
  | transport (msg : String)
deriving DecidableEq, Repr

structure PRError where
  kind : PRErrorKind
  isApiError : Bool
deriving DecidableEq, Repr

/-- A successful return: business status 0 returns the payload's
`data` field; a JSON body without a numeric `ret` is returned whole. -/
inductive PRSuccess where
  | dataField (d : Option String)
  | wholeBody (b : JsonBody)
deriving DecidableEq, Repr

/-- Classification of a single attempt's outcome (the `try` body of the
source loop). -/
def classifyAttempt (cfg : PlatformConfig) : HttpAttempt → Except PRError PRSuccess
  | .transportError msg => .error ⟨.transport msg, false⟩
  | .response status contentType bodyText parsed =>
    match parsed with
    | none =>
      if looksLikeHtml bodyText contentType then
        .error ⟨.authHtml cfg.key, true⟩
      else
        .error ⟨.nonJson status (previewResponseBody bodyText), true⟩
    | some body =>
      match body.ret with
      | none => .ok (.wholeBody body)
      | some r =>
        if r = 0 then .ok (.dataField body.data)
        else
          let errMsg :=
            match body.errmsg with
            | some m => if m = "" then toString r else m
            | none => toString r
          if r = 1015 ∧ jsIncludes (jsToLower errMsg) "login" then
            .error ⟨.loginRequired cfg.key, true⟩
          else if r = 5000 then
            -- source: `throw new Error(...)` with no `isApiError` marker
            .error ⟨.insufficientBalance cfg.key, false⟩
          else
            .error ⟨.genericApi (toString r) errMsg, true⟩

/-- The observable trace of one `platformRequest` call: its result, the
number of HTTP attempts issued, and the backoff sleeps (ms) performed
before retries, in order. -/
instance : DecidableEq (Except PRError PRSuccess) := fun a b =>
  match a, b with
  | .ok x, .ok y => decidable_of_iff (x = y) (by simp)
  | .error x, .error y => decidable_of_iff (x = y) (by simp)
  | .ok _, .error _ => isFalse (by simp)
  | .error _, .ok _ => isFalse (by simp)

structure PRRun where
  result : Except PRError PRSuccess
  attempts : Nat
  sleeps : List Nat
deriving DecidableEq, Repr

/-- The `for (let attempt = 0; attempt <= 3; attempt++)` loop: before a
retry (`attempt > 0`) sleep `1000 * attempt` ms; rethrow immediately on
an `isApiError` error; rethrow on `attempt === 3`; otherwise retry.
An empty outcome list models an environment that never answers. -/
def prLoop (cfg : PlatformConfig) : List HttpAttempt → Nat → PRRun
  | [], attempt => ⟨.error ⟨.transport "no response", false⟩, attempt, []⟩
  | o :: rest, attempt =>
    let sleepsHere := if attempt > 0 then [1000 * attempt] else []
    match classifyAttempt cfg o with
    | .ok v => ⟨.ok v, attempt + 1, sleepsHere⟩
    | .error e =>
      if e.isApiError then ⟨.error e, attempt + 1, sleepsHere⟩
      else if attempt = 3 then ⟨.error e, attempt + 1, sleepsHere⟩
      else
        let r := prLoop cfg rest (attempt + 1)
        ⟨r.result, r.attempts, sleepsHere ++ r.sleeps⟩

/-- `platformRequest` with the environment's per-attempt outcomes. -/
def platformRequest (cfg : PlatformConfig) (outcomes : List HttpAttempt) : PRRun :=
  prLoop cfg outcomes 0

/-! ## SHA-256 and HMAC-SHA256

`createAWSSignature` calls node's `crypto` SHA-256/HMAC primitives; they
are reproduced here over byte lists (`Nat` values < 256, 32-bit words as
`Nat` reduced mod `2^32`). -/

def w32 (x : Nat) : Nat := x % 4294967296

def rotr32 (n x : Nat) : Nat :=
  (x >>> n) ||| ((x % (2 ^ n)) <<< (32 - n))

def shr32 (n x : Nat) : Nat := x >>> n

def not32 (x : Nat) : Nat := 4294967295 - x % 4294967296

def bigSigma0 (x : Nat) : Nat := rotr32 2 x ^^^ rotr32 13 x ^^^ rotr32 22 x
def bigSigma1 (x : Nat) : Nat := rotr32 6 x ^^^ rotr32 11 x ^^^ rotr32 25 x
def smallSigma0 (x : Nat) : Nat := rotr32 7 x ^^^ rotr32 18 x ^^^ shr32 3 x
def smallSigma1 (x : Nat) : Nat := rotr32 17 x ^^^ rotr32 19 x ^^^ shr32 10 x

def sha256K : List Nat :=
  [1116352408, 1899447441, 3049323471, 3921009573, 961987163,
   1508970993, 2453635748, 2870763221, 3624381080, 310598401,
   607225278, 1426881987, 1925078388, 2162078206, 2614888103,
   3248222580, 3835390401, 4022224774, 264347078, 604807628,
   770255983, 1249150122, 1555081692, 1996064986, 2554220882,
   2821834349, 2952996808, 3210313671, 3336571891, 3584528711,
   113926993, 338241895, 666307205, 773529912, 1294757372,
   1396182291, 1695183700, 1986661051, 2177026350, 2456956037,
   2730485921, 2820302411, 3259730800, 3345764771, 3516065817,
   3600352804, 4094571909, 275423344, 430227734, 506948616,
   659060556, 883997877, 958139571, 1322822218, 1537002063,
   1747873779, 1955562222, 2024104815, 2227730452, 2361852424,
   2428436474, 2756734187, 3204031479, 3329325298]

structure Sha256State where
  a : Nat
  b : Nat
  c : Nat
  d : Nat
  e : Nat
  f : Nat
  g : Nat
  h : Nat
deriving Repr

def sha256Init : Sha256State :=
  ⟨1779033703, 3144134277, 1013904242, 2773480762,
   1359893119, 2600822924, 528734635, 1541459225⟩

def bytesToWords : List Nat → List Nat
  | b0 :: b1 :: b2 :: b3 :: rest =>
    (b0 * 16777216 + b1 * 65536 + b2 * 256 + b3) :: bytesToWords rest
  | _ => []

def wordToBytes (x : Nat) : List Nat :=
  [(x >>> 24) % 256, (x >>> 16) % 256, (x >>> 8) % 256, x % 256]

/-- Message-schedule extension: `rw` holds already-computed words, most
recent first; `w[i-16], w[i-15], w[i-7], w[i-2]` are positions
`15, 14, 6, 1` of `rw`. -/
def schedStep (rw : List Nat) : Nat :=
  w32 (rw.getD 15 0 + smallSigma0 (rw.getD 14 0) + rw.getD 6 0 + smallSigma1 (rw.getD 1 0))

def schedGo : Nat → List Nat → List Nat
  | 0, rw => rw
  | n + 1, rw => schedGo n (schedStep rw :: rw)

def compressRound (st : Sha256State) (kw : Nat × Nat) : Sha256State :=
  let ch := (st.e &&& st.f) ^^^ (not32 st.e &&& st.g)
  let maj := (st.a &&& st.b) ^^^ (st.a &&& st.c) ^^^ (st.b &&& st.c)
  let t1 := w32 (st.h + bigSigma1 st.e + ch + kw.1 + kw.2)
  let t2 := w32 (bigSigma0 st.a + maj)
  ⟨w32 (t1 + t2), st.a, st.b, st.c, w32 (st.d + t1), st.e, st.f, st.g⟩

def compressChunk (H : Sha256State) (chunk : List Nat) : Sha256State :=
  let w16 := bytesToWords chunk
  let w := (schedGo 48 w16.reverse).reverse
  let st := (sha256K.zip w).foldl compressRound H
  ⟨w32 (H.a + st.a), w32 (H.b + st.b), w32 (H.c + st.c), w32 (H.d + st.d),
   w32 (H.e + st.e), w32 (H.f + st.f), w32 (H.g + st.g), w32 (H.h + st.h)⟩

def toChunks (l : List Nat) : List (List Nat) :=
  if h : l = [] then []
  else l.take 64 :: toChunks (l.drop 64)
termination_by l.length
decreasing_by
  simp only [List.length_drop]
  have := List.length_pos.mpr h
  omega

def sha256Pad (msg : List Nat) : List Nat :=
  let L := msg.length
  let k := (119 - L % 64) % 64
  let lenBits := L * 8
  msg ++ [0x80] ++ List.replicate k 0 ++
    [(lenBits >>> 56) % 256, (lenBits >>> 48) % 256, (lenBits >>> 40) % 256,
     (lenBits >>> 32) % 256, (lenBits >>> 24) % 256, (lenBits >>> 16) % 256,
     (lenBits >>> 8) % 256, lenBits % 256]

def sha256 (msg : List Nat) : List Nat :=
  let final := (toChunks (sha256Pad msg)).foldl compressChunk sha256Init
  wordToBytes final.a ++ wordToBytes final.b ++ wordToBytes final.c ++
    wordToBytes final.d ++ wordToBytes final.e ++ wordToBytes final.f ++
    wordToBytes final.g ++ wordToBytes final.h

def hexDigit (n : Nat) : Char :=
  "0123456789abcdef".toList.getD n '0'

def toHex (bytes : List Nat) : String :=
  String.mk (bytes.flatMap fun b => [hexDigit (b / 16 % 16), hexDigit (b % 16)])

/-- UTF-8 encoding of one scalar value. -/
def utf8Char (c : Char) : List Nat :=
  let n := c.toNat
  if n < 0x80 then [n]
  else if n < 0x800 then [0xc0 ||| (n >>> 6), 0x80 ||| (n &&& 63)]
  else if n < 0x10000 then
    [0xe0 ||| (n >>> 12), 0x80 ||| ((n >>> 6) &&& 63), 0x80 ||| (n &&& 63)]
  else
    [0xf0 ||| (n >>> 18), 0x80 ||| ((n >>> 12) &&& 63),
     0x80 ||| ((n >>> 6) &&& 63), 0x80 ||| (n &&& 63)]

def utf8Encode (s : String) : List Nat :=
  s.toList.flatMap utf8Char

def sha256Hex (s : String) : String :=
  toHex (sha256 (utf8Encode s))

def hmacSha256 (key msg : List Nat) : List Nat :=
  let k0 := if key.length > 64 then sha256 key else key
  let kp := k0 ++ List.replicate (64 - k0.length) 0
  let ipad := kp.map (fun b => b ^^^ 0x36)
  let opad := kp.map (fun b => b ^^^ 0x5c)
  sha256 (opad ++ sha256 (ipad ++ msg))

/-! ## AWS4-HMAC-SHA256 signature (src/unnamed/part_003, lines 620–713)

The source builds `new URL(url)` and reads only `pathname` and
`searchParams`; the URL is therefore modelled pre-parsed.  Likewise it
reads exactly one field of its `headers` argument, `headers['x-amz-date']`,
which is passed here directly as `xAmzDate`. -/

/-- Lexicographic comparison of strings by scalar value (the behaviour
of JS `<`/`>` and, on the ASCII header names involved, of
`localeCompare`). -/
def jsStrLt (a b : String) : Bool :=
  go a.toList b.toList
where
  go : List Char → List Char → Bool
    | [], [] => false
    | [], _ :: _ => true
    | _ :: _, [] => false
    | x :: xs, y :: ys => if x = y then go xs ys else decide (x < y)

/-- Stable insertion sort with a strict-order comparator, matching JS
`Array.prototype.sort` (stable since ES2019). -/
def insertStable (lt : α → α → Bool) (x : α) : List α → List α
  | [] => [x]
  | y :: t => if lt y x then y :: insertStable lt x t else x :: y :: t

def sortStable (lt : α → α → Bool) : List α → List α
  | [] => []
  | x :: t => insertStable lt x (sortStable lt t)

def joinWith (sep : String) : List String → String
  | [] => ""
  | [x] => x
  | x :: y :: t => x ++ sep ++ joinWith sep (y :: t)

structure ParsedUrl where
  pathname : String
  searchParams : List (String × String)
deriving DecidableEq, Repr

/-- `createAWSSignature(method, url, headers, accessKeyId,
secretAccessKey, sessionToken, payload = '')`. -/
def createAWSSignature (method : String) (url : ParsedUrl) (xAmzDate : String)
    (accessKeyId secretAccessKey sessionToken : String)
    (payload : String := "") : String :=
  let pathname := if url.pathname = "" then "/" else url.pathname
  let timestamp := xAmzDate
  let date := String.mk (timestamp.toList.take 8)
  let region := "cn-north-1"
  let service := "imagex"
  let queryParams := sortStable (fun a b => jsStrLt a.1 b.1) url.searchParams
  let canonicalQueryString := joinWith "&" (queryParams.map fun kv => kv.1 ++ "=" ++ kv.2)
  let baseHeaders :=
    if sessionToken ≠ "" then
      [("x-amz-date", timestamp), ("x-amz-security-token", sessionToken)]
    else [("x-amz-date", timestamp)]
  let emptyHash := sha256Hex ""
  let withPayload :=
    if jsToUpper method = "POST" ∧ payload ≠ "" then
      let ph := sha256Hex payload
      (ph, baseHeaders ++ [("x-amz-content-sha256", ph)])
    else (emptyHash, baseHeaders)
  let payloadHash := withPayload.1
  let headersToSign := withPayload.2
  let signedHeaders :=
    joinWith ";" (sortStable jsStrLt (headersToSign.map fun kv => jsToLower kv.1))
  let canonicalHeaders :=
    String.join ((sortStable (fun a b => jsStrLt (jsToLower a.1) (jsToLower b.1)) headersToSign).map
      fun kv => jsToLower kv.1 ++ ":" ++ jsTrim kv.2 ++ "\n")
  let canonicalRequest :=
    joinWith "\n" [jsToUpper method, pathname, canonicalQueryString,
      canonicalHeaders, signedHeaders, payloadHash]
  let credentialScope := date ++ "/" ++ region ++ "/" ++ service ++ "/aws4_request"
  let stringToSign :=
    joinWith "\n" ["AWS4-HMAC-SHA256", timestamp, credentialScope, sha256Hex canonicalRequest]
  let kDate := hmacSha256 (utf8Encode ("AWS4" ++ secretAccessKey)) (utf8Encode date)
  let kRegion := hmacSha256 kDate (utf8Encode region)
  let kService := hmacSha256 kRegion (utf8Encode service)
  let kSigning := hmacSha256 kService (utf8Encode "aws4_request")
  let signature := toHex (hmacSha256 kSigning (utf8Encode stringToSign))
  "AWS4-HMAC-SHA256 Credential=" ++ accessKeyId ++ "/" ++ credentialScope ++
    ", SignedHeaders=" ++ signedHeaders ++ ", Signature=" ++ signature

/-! ## Task registry (src/unnamed/part_003: `tasks` map, the
`GET /api/task/:taskId` handler at lines 1817–1840, and the periodic
sweep at lines 236–243) -/

inductive TaskStatus where
  | processing
  | done
  | error
deriving DecidableEq, Repr

/-- One entry of the in-memory `tasks` map.  `result` is the terminal
result object (opaque here), `errorMsg` the terminal error message,
`progress` the human-readable progress; `startTime` is `Date.now()` at
creation (ms). -/
structure Task where
  id : String
  status : TaskStatus
  progress : String
  startTime : Nat
  result : Option String
  errorMsg : Option String
deriving DecidableEq, Repr

/-- The JSON bodies the poll endpoint can answer with. -/
inductive PollResponse where
  | notFound                                      -- 404 `{error: '任务不存在'}`
  | processing (elapsed : Nat) (progress : String)
  | done (elapsed : Nat) (result : Option String)
  | error (elapsed : Nat) (msg : Option String)
deriving DecidableEq, Repr

/-- What one poll does: the response sent, plus the deferred deletion
(`setTimeout(() => tasks.delete(task.id), 300000)`) it schedules, as
`(taskId, delayMs)`. -/
structure PollEffect where
  response : PollResponse
  scheduledDeletion : Option (String × Nat)
deriving DecidableEq, Repr

def lookupTask (tasks : List (String × Task)) (taskId : String) : Option Task :=
  match tasks with
  | [] => none
  | (k, t) :: rest => if k = taskId then some t else lookupTask rest taskId

/-- The `GET /api/task/:taskId` handler. `now` is `Date.now()` in ms. -/
def getTaskHandler (tasks : List (String × Task)) (taskId : String) (now : Nat) :
    PollEffect :=
  match lookupTask tasks taskId with
  | none => ⟨.notFound, none⟩
  | some task =>
    let elapsed := (now - task.startTime) / 1000
    match task.status with
    | .done => ⟨.done elapsed task.result, some (task.id, 300000)⟩
    | .error => ⟨.error elapsed task.errorMsg, some (task.id, 300000)⟩
    | .processing => ⟨.processing elapsed task.progress, none⟩

/-- The sweep interval of the `setInterval` cleanup loop (ms). -/
def SWEEP_INTERVAL_MS : Nat := 60000

/-- The age bound of the cleanup loop: `30 * 60 * 1000` ms. -/
def TASK_MAX_AGE_MS : Nat := 30 * 60 * 1000

/-- The default generation timeout: `45 * 60 * 1000` ms (used when
`VIDEO_GENERATION_TIMEOUT_MS` is unset or not a positive number). -/
def DEFAULT_VIDEO_GENERATION_TIMEOUT_MS : Nat := 45 * 60 * 1000

/-- One firing of the periodic sweep: delete every task with
`now - task.startTime > 30 * 60 * 1000`, regardless of status. -/
def sweepTasks (tasks : List (String × Task)) (now : Nat) : List (String × Task) :=
  tasks.filter fun kt => !(now - kt.2.startTime > TASK_MAX_AGE_MS)

/-! ## Browser session pool (src/unnamed/part_004)

`BrowserService.fetch` runs under the per-key lock and makes up to two
in-page evaluation attempts; a first-attempt "target closed" failure
discards the browser handle and every cached session
(`recreateBrowser`), then retries once.  The environment supplies each
attempt's evaluation outcome. -/

def TARGET_CLOSED_PATTERNS : List String :=
  ["has been closed", "target closed", "browser has been closed",
   "context or browser has been closed"]

/-- `isTargetClosedError(error)`: the lower-cased message contains one
of the patterns. -/
def isTargetClosedError (msg : String) : Bool :=
  TARGET_CLOSED_PATTERNS.any fun pattern => jsIncludes (jsToLower msg) pattern

/-- `getSessionCacheKey(sessionId, platformKey, rawCookieHeader)` — the
composite per-key lock/cache key. -/
def getSessionCacheKey (sessionId platformKey rawCookieHeader : String) : String :=
  platformKey ++ ":" ++ sessionId ++ "|" ++ rawCookieHeader

/-- The pool state observable by the claims: the live browser handle
(`some generation`, or `none` after a discard), how many browser
launches have happened, and the cached session keys. -/
structure PoolState where
  browser : Option Nat
  launches : Nat
  sessions : List String
deriving DecidableEq, Repr

/-- `recreateBrowser`: drop the stale handle and clear every cached
session. -/
def recreateBrowser (st : PoolState) : PoolState :=
  { st with browser := none, sessions := [] }

/-- `ensureBrowser`: reuse a connected browser, else launch a new one. -/
def ensureBrowser (st : PoolState) : PoolState :=
  match st.browser with
  | some _ => st
  | none => { st with browser := some (st.launches + 1), launches := st.launches + 1 }

/-- `getSession` reduced to its state effect: ensure a browser and cache
the session under its key (navigation details are not modelled). -/
def getSessionState (key : String) (st : PoolState) : PoolState :=
  let st := ensureBrowser st
  if st.sessions.contains key then st else { st with sessions := key :: st.sessions }

/-- One in-page `page.evaluate(fetch ...)` outcome supplied by the
environment: either it resolved with a response (parsed JSON modelled
opaquely, as in `HttpAttempt`), or the evaluation threw. -/
inductive EvalAttempt where
  | resolved (status : Nat) (contentType : String) (bodyText : String)
      (parsed : Option String)
  | thrown (msg : String)
deriving DecidableEq, Repr

/-- The errors `BrowserService.fetch` can throw. -/
inductive BFError where
  | authFetchFailed (platformKey : String)   -- message includes 'Failed to fetch'
  | authHtml (platformKey : String)          -- HTML challenge body
  | nonJson (status : Nat) (preview : String)
  | propagated (msg : String)                -- rethrown evaluation error
  | proxyFailed                              -- the final `throw` after the loop
deriving DecidableEq, Repr

instance : DecidableEq (Except BFError String) := fun a b =>
  match a, b with
  | .ok x, .ok y => decidable_of_iff (x = y) (by simp)
  | .error x, .error y => decidable_of_iff (x = y) (by simp)
  | .ok _, .error _ => isFalse (by simp)
  | .error _, .ok _ => isFalse (by simp)

structure BrowserFetchRun where
  result : Except BFError String
  finalState : PoolState
  recreations : Nat
deriving DecidableEq, Repr

/-- `looksLikeHtmlResponse(contentType, text)` from part_004 (same
algorithm as `looksLikeHtml`, with the arguments swapped). -/
def looksLikeHtmlResponse (contentType text : String) : Bool :=
  jsIncludes (jsToLower contentType) "text/html" ||
  (let normalizedBody := String.mk ((text.toList.take 200).map asciiLower)
   jsIncludes normalizedBody "<!doctype html" || jsIncludes normalizedBody "<html")

/-- The `for (let attempt = 0; attempt < 2; attempt++)` body of
`BrowserService.fetch` (run inside the per-key lock).  Attempt `i`
consumes outcome `i`; a first-attempt target-closed error triggers
`recreateBrowser` and a retry; when both attempts are exhausted the
final `throw new Error('浏览器代理请求失败')` fires. -/
def browserFetchLoop (cfg : PlatformConfig) (key : String) :
    List EvalAttempt → PoolState → Nat → Nat → BrowserFetchRun
  | _, st, rec, 2 => ⟨.error .proxyFailed, st, rec⟩
  | [], st, rec, _ => ⟨.error .proxyFailed, st, rec⟩
  | o :: rest, st, rec, attempt =>
    let st := getSessionState key st
    match o with
    | .thrown msg =>
      if jsIncludes msg "Failed to fetch" then
        ⟨.error (.authFetchFailed cfg.key), st, rec⟩
      else if attempt = 0 ∧ isTargetClosedError msg then
        browserFetchLoop cfg key rest (recreateBrowser st) (rec + 1) (attempt + 1)
      else
        ⟨.error (.propagated msg), st, rec⟩
    | .resolved status contentType bodyText parsed =>
      match parsed with
      | some json => ⟨.ok json, st, rec⟩
      | none =>
        if looksLikeHtmlResponse contentType bodyText then
          ⟨.error (.authHtml cfg.key), st, rec⟩
        else
          ⟨.error (.nonJson status (previewResponseBody bodyText)), st, rec⟩

/-- `BrowserService.fetch` reduced to its retry/recreation behaviour. -/
def browserFetch (cfg : PlatformConfig) (key : String)
    (outcomes : List EvalAttempt) (st : PoolState) : BrowserFetchRun :=
  browserFetchLoop cfg key outcomes st 0 0

/-! ## Per-key session lock (src/unnamed/part_004, `runWithSessionLock`)

`runWithSessionLock(cacheKey, fn)` chains `fn` onto the tail promise of
its key: `previous.catch(() => undefined).then(() => fn())`.  Operations
on a key are therefore numbered by their position in that per-key
promise chain, and operation `n` can start only after operation `n-1`
has settled.  An execution is modelled as a trace of start/finish
events; `validTrace` is exactly the promise-chaining discipline:
an operation starts at most once, after its predecessor on the same key
has finished, and finishes at most once, after it has started.
Operations on different keys are unconstrained. -/

inductive LockEvent where
  | start (key : String) (op : Nat)
  | finish (key : String) (op : Nat)
deriving DecidableEq, Repr

def hasEvent (pre : List LockEvent) (e : LockEvent) : Bool :=
  pre.any fun x => decide (x = e)

def checkEvent (pre : List LockEvent) : LockEvent → Bool
  | .start k n =>
    (decide (n = 0) || hasEvent pre (.finish k (n - 1))) && !hasEvent pre (.start k n)
  | .finish k n =>
    hasEvent pre (.start k n) && !hasEvent pre (.finish k n)

def validFrom (pre : List LockEvent) : List LockEvent → Bool
  | [] => true
  | e :: rest => checkEvent pre e && validFrom (pre ++ [e]) rest

def validTrace (tr : List LockEvent) : Bool :=
  validFrom [] tr

theorem validFrom_getElem {pre rest : List LockEvent} (h : validFrom pre rest = true)
    {i : Nat} {e : LockEvent} (hi : rest[i]? = some e) :
    checkEvent (pre ++ rest.take i) e = true := by
  induction rest generalizing pre i with
  | nil => simp at hi
  | cons e₀ rest ih =>
    rw [validFrom, Bool.and_eq_true] at h
    cases i with
    | zero =>
      rw [List.getElem?_cons_zero, Option.some_inj] at hi
      subst hi
      simpa using h.1
    | succ i =>
      rw [List.getElem?_cons_succ] at hi
      have := ih h.2 hi
      simpa [List.append_assoc] using this

theorem checkEvent_of_valid {tr : List LockEvent} (h : validTrace tr = true)
    {i : Nat} {e : LockEvent} (hi : tr[i]? = some e) :
    checkEvent (tr.take i) e = true := by
  have h0 : validFrom [] tr = true := h
  simpa using validFrom_getElem h0 hi

theorem hasEvent_iff {pre : List LockEvent} {e : LockEvent} :
    hasEvent pre e = true ↔ e ∈ pre := by
  simp [hasEvent]

theorem mem_take_iff {l : List LockEvent} {j : Nat} {e : LockEvent} :
    e ∈ l.take j ↔ ∃ p, p < j ∧ l[p]? = some e := by
  rw [List.mem_iff_getElem?]
  constructor
  · rintro ⟨p, hp⟩
    rw [List.getElem?_take] at hp
    by_cases hlt : p < j
    · exact ⟨p, hlt, by simpa [hlt] using hp⟩
    · simp [hlt] at hp
  · rintro ⟨p, hpj, hp⟩
    exact ⟨p, by simp [List.getElem?_take, hpj, hp]⟩

theorem finish_unique {tr : List LockEvent} (h : validTrace tr = true)
    {k : String} {n q₁ q₂ : Nat}
    (h₁ : tr[q₁]? = some (.finish k n)) (h₂ : tr[q₂]? = some (.finish k n)) :
    q₁ = q₂ := by
  have aux : ∀ a b : Nat, a < b → tr[a]? = some (.finish k n) →
      tr[b]? = some (.finish k n) → False := by
    intro a b hab ha hb
    have hc := checkEvent_of_valid h hb
    rw [checkEvent, Bool.and_eq_true, Bool.not_eq_true'] at hc
    have hmem : LockEvent.finish k n ∈ tr.take b := mem_take_iff.2 ⟨a, hab, ha⟩
    rw [← hasEvent_iff] at hmem
    rw [hc.2] at hmem
    exact Bool.false_ne_true hmem
  rcases Nat.lt_trichotomy q₁ q₂ with hlt | heq | hgt
  · exact absurd (aux q₁ q₂ hlt h₁ h₂) id
  · exact heq
  · exact absurd (aux q₂ q₁ hgt h₂ h₁) id

theorem start_unique {tr : List LockEvent} (h : validTrace tr = true)
    {k : String} {n p₁ p₂ : Nat}
    (h₁ : tr[p₁]? = some (.start k n)) (h₂ : tr[p₂]? = some (.start k n)) :
    p₁ = p₂ := by
  have aux : ∀ a b : Nat, a < b → tr[a]? = some (.start k n) →
      tr[b]? = some (.start k n) → False := by
    intro a b hab ha hb
    have hc := checkEvent_of_valid h hb
    rw [checkEvent, Bool.and_eq_true, Bool.not_eq_true'] at hc
    have hmem : LockEvent.start k n ∈ tr.take b := mem_take_iff.2 ⟨a, hab, ha⟩
    rw [← hasEvent_iff] at hmem
    rw [hc.2] at hmem
    exact Bool.false_ne_true hmem
  rcases Nat.lt_trichotomy p₁ p₂ with hlt | heq | hgt
  · exact absurd (aux p₁ p₂ hlt h₁ h₂) id
  · exact heq
  · exact absurd (aux p₂ p₁ hgt h₂ h₁) id

theorem start_before_finish {tr : List LockEvent} (h : validTrace tr = true)
    {k : String} {n q : Nat} (hq : tr[q]? = some (.finish k n)) :
    ∃ p, p < q ∧ tr[p]? = some (.start k n) := by
  have hc := checkEvent_of_valid h hq
  rw [checkEvent, Bool.and_eq_true] at hc
  exact mem_take_iff.1 (hasEvent_iff.1 hc.1)

theorem pred_finish_before_start {tr : List LockEvent} (h : validTrace tr = true)
    {k : String} {n p : Nat} (hp : tr[p]? = some (.start k (n + 1))) :
    ∃ q, q < p ∧ tr[q]? = some (.finish k n) := by
  have hc := checkEvent_of_valid h hp
  rw [checkEvent, Bool.and_eq_true, Bool.or_eq_true] at hc
  rcases hc.1 with h0 | hfin
  · simp at h0
  · exact mem_take_iff.1 (hasEvent_iff.1 hfin)

/-- Serialization core: on one key, operation `i`'s finish precedes
operation `j`'s start whenever `i < j`. -/
theorem lock_serializes {tr : List LockEvent} (h : validTrace tr = true)
    {k : String} : ∀ {j i pi qi pj : Nat}, i < j →
    tr[pi]? = some (.start k i) → tr[qi]? = some (.finish k i) →
    tr[pj]? = some (.start k j) → qi < pj := by
  intro j
  induction j using Nat.strong_induction_on with
  | _ j ih =>
    intro i pi qi pj hij hpi hqi hpj
    obtain ⟨m, rfl⟩ : ∃ m, j = m + 1 := ⟨j - 1, by omega⟩
    obtain ⟨q, hq, hfin⟩ := pred_finish_before_start h hpj
    rcases Nat.eq_or_lt_of_le (Nat.le_of_lt_succ hij) with heq | hlt
    · subst heq
      have := finish_unique h hqi hfin
      omega
    · obtain ⟨p, hp, hstart⟩ := start_before_finish h hfin
      have := ih m (by omega) hlt hpi hqi hstart
      omega

/-! ## Helper lemmas about trimming and the normalizer -/

theorem head?_dropWhile_not (p : Char → Bool) :
    ∀ (l : List Char) (a : Char), (l.dropWhile p).head? = some a → p a = false := by
  intro l
  induction l with
  | nil => intro a h; simp at h
  | cons c t ih =>
    intro a h
    rw [List.dropWhile_cons] at h
    by_cases hc : p c
    · rw [if_pos hc] at h; exact ih a h
    · rw [if_neg hc] at h
      rw [List.head?_cons, Option.some_inj] at h
      subst h
      simpa using hc

theorem dropWhile_eq_self_of_head (p : Char → Bool) (l : List Char)
    (h : ∀ a, l.head? = some a → p a = false) : l.dropWhile p = l := by
  cases l with
  | nil => rfl
  | cons c t =>
    rw [List.dropWhile_cons, if_neg]
    simp [h c rfl]

theorem dropWhile_idem (p : Char → Bool) (l : List Char) :
    (l.dropWhile p).dropWhile p = l.dropWhile p :=
  dropWhile_eq_self_of_head p _ (head?_dropWhile_not p l)

theorem jsTrimList_idem (cs : List Char) : jsTrimList (jsTrimList cs) = jsTrimList cs := by
  have hzdrop : (jsTrimList cs).dropWhile isJsWs = jsTrimList cs := by
    apply dropWhile_eq_self_of_head
    intro a ha
    have hsuf : (cs.dropWhile isJsWs).reverse.dropWhile isJsWs <:+
        (cs.dropWhile isJsWs).reverse := List.dropWhile_suffix isJsWs
    obtain ⟨t, ht⟩ := hsuf
    have hy : cs.dropWhile isJsWs = jsTrimList cs ++ t.reverse := by
      have := congrArg List.reverse ht
      simpa [jsTrimList] using this.symm
    apply head?_dropWhile_not isJsWs cs
    rw [hy]
    cases hz : jsTrimList cs with
    | nil => rw [hz] at ha; simp at ha
    | cons b z =>
      rw [hz] at ha
      rw [List.head?_cons, Option.some_inj] at ha
      subst ha
      simp
  show jsTrimList (jsTrimList cs) = jsTrimList cs
  conv_lhs => rw [jsTrimList, hzdrop]
  rw [jsTrimList, List.reverse_reverse, dropWhile_idem]

theorem toList_mk (l : List Char) : (String.mk l).toList = l := rfl

theorem jsTrim_idem (s : String) : jsTrim (jsTrim s) = jsTrim s := by
  rw [jsTrim, jsTrim, toList_mk, jsTrimList_idem]

theorem mem_mapSet {m : List (String × String)} {k v : String} {kv : String × String}
    (h : kv ∈ mapSet m k v) : kv = (k, v) ∨ kv ∈ m := by
  induction m with
  | nil => simpa [mapSet] using h
  | cons hd t ih =>
    rw [mapSet] at h
    split at h
    · rcases List.mem_cons.1 h with h' | h'
      · exact Or.inl h'
      · exact Or.inr (List.mem_cons.2 (Or.inr h'))
    · rcases List.mem_cons.1 h with h' | h'
      · exact Or.inr (List.mem_cons.2 (Or.inl h'))
      · rcases ih h' with h'' | h''
        · exact Or.inl h''
        · exact Or.inr (List.mem_cons.2 (Or.inr h''))

theorem mapGet_mem {m : List (String × String)} {k v : String}
    (h : mapGet m k = some v) : (k, v) ∈ m := by
  induction m with
  | nil => simp [mapGet] at h
  | cons hd t ih =>
    rw [mapGet] at h
    split at h
    · rw [Option.some_inj] at h
      subst h
      rename_i heq
      exact List.mem_cons.2 (Or.inl (by rw [← heq]))
    · exact List.mem_cons.2 (Or.inr (ih h))

/-- Every value stored by `parseCookieString` is a trimmed nonempty
string. -/
theorem parseCookie_mem {s : String} {kv : String × String}
    (h : kv ∈ parseCookieString s) : jsTrim kv.2 = kv.2 ∧ kv.2 ≠ "" := by
  suffices H : ∀ (frags : List (List Char)) (m₀ : List (String × String)),
      (∀ kv' ∈ m₀, jsTrim kv'.2 = kv'.2 ∧ kv'.2 ≠ "") →
      ∀ kv' ∈ frags.foldl cookieFragmentStep m₀, jsTrim kv'.2 = kv'.2 ∧ kv'.2 ≠ "" by
    exact H _ [] (by simp) kv h
  intro frags
  induction frags with
  | nil => intro m₀ hm kv' h'; exact hm kv' h'
  | cons f rest ih =>
    intro m₀ hm kv' h'
    rw [List.foldl_cons] at h'
    refine ih _ ?_ kv' h'
    intro kv'' h''
    unfold cookieFragmentStep at h''
    dsimp only at h''
    split at h''
    · exact hm kv'' h''
    · split at h''
      · exact hm kv'' h''
      · split at h''
        · exact hm kv'' h''
        · split at h''
          · rcases mem_mapSet h'' with hkv | hkv
            · subst hkv
              refine ⟨jsTrim_idem _, ?_⟩
              rename_i hguard
              exact hguard.2
            · exact hm kv'' hkv
          · exact hm kv'' h''

theorem firstCandidateToken_mem {m : List (String × String)} :
    ∀ {ks : List String} {tok : String}, firstCandidateToken m ks = some tok →
    ∃ k, mapGet m k = some tok := by
  intro ks
  induction ks with
  | nil => intro tok h; simp [firstCandidateToken] at h
  | cons k rest ih =>
    intro tok h
    rw [firstCandidateToken] at h
    split at h
    · split at h
      · rw [Option.some_inj] at h
        subst h
        rename_i hget _
        exact ⟨k, hget⟩
      · exact ih h
    · exact ih h

theorem firstCandidateToken_head {m : List (String × String)} {k v : String}
    (ks : List String) (h : mapGet m k = some v) (hv : v ≠ "") :
    firstCandidateToken m (k :: ks) = some v := by
  simp [firstCandidateToken, h, hv]

/-- Every string `normalizeSessionInput` returns is already trimmed. -/
theorem normalize_trimmed (p s : String) :
    jsTrim (normalizeSessionInput p s) = normalizeSessionInput p s := by
  unfold normalizeSessionInput
  dsimp only
  split
  · rfl
  · split
    · exact jsTrim_idem _
    · split
      · exact jsTrim_idem _
      · split
        · rename_i token htok
          obtain ⟨k, hget⟩ := firstCandidateToken_mem htok
          exact (parseCookie_mem (mapGet_mem hget)).1
        · split
          · split
            · split
              · split
                · exact jsTrim_idem _
                · rfl
              · rfl
            · rfl
          · rfl

/-- Shared core of the bare-token law: when the trimmed input neither
matches the `identifier:value` shape nor contains `=`, the normalizer
returns the trimmed input. -/
theorem normalize_bare (p s : String) (h1 : colonCapture (jsTrim s) = none)
    (h2 : jsIncludes (jsTrim s) "=" = false) :
    normalizeSessionInput p s = jsTrim s := by
  unfold normalizeSessionInput
  dsimp only
  split
  · rename_i h
    rw [h]
  · rw [h1, h2]
    rfl

/-! ## Claim theorems -/

/-- C1: the spec and the source's own comments state that business
errors (non-zero `ret`) are never retried, but the `ret=5000`
insufficient-balance error is thrown without the `isApiError` marker and
is therefore retried like a transport failure: after a `ret=5000`
response, `platformRequest` issues further HTTP attempts (returning a
later attempt's success, or surfacing the balance error only after the
retry budget is spent), while other business codes (e.g. `ret=42`,
`ret=1015`) are terminal on the first attempt. -/
theorem C1_business_error_5000_is_retried :
    ∀ (em : String) (d : Option String),
    platformRequest jimengConfig
      [.response 200 "application/json" "raw" (some ⟨some 5000, some em, none⟩),
       .response 200 "application/json" "raw" (some ⟨some 0, none, d⟩)] =
      ⟨.ok (.dataField d), 2, [1000]⟩ ∧
    platformRequest jimengConfig
      (List.replicate 4
        (.response 200 "application/json" "raw" (some ⟨some 5000, some em, none⟩))) =
      ⟨.error ⟨.insufficientBalance "jimeng", false⟩, 4, [1000, 2000, 3000]⟩ ∧
    platformRequest jimengConfig
      [.response 200 "application/json" "raw" (some ⟨some 42, some "boom", none⟩),
       .response 200 "application/json" "raw" (some ⟨some 0, none, d⟩)] =
      ⟨.error ⟨.genericApi "42" "boom", true⟩, 1, []⟩ :=
  fun _ _ => ⟨rfl, rfl, rfl⟩

/-- C2: transport failures are retried up to 3 additional attempts with
1s/2s/3s backoff; three transport failures followed by a `ret=0` success
return the successful payload's `data` on the 4th attempt, and a
transport failure on the 4th attempt propagates to the caller. -/
theorem C2_transport_retry_policy :
    ∀ (cfg : PlatformConfig) (m₁ m₂ m₃ m₄ : String) (d : Option String),
    platformRequest cfg
      [.transportError m₁, .transportError m₂, .transportError m₃,
       .response 200 "application/json" "raw" (some ⟨some 0, none, d⟩)] =
      ⟨.ok (.dataField d), 4, [1000, 2000, 3000]⟩ ∧
    platformRequest cfg
      [.transportError m₁, .transportError m₂, .transportError m₃,
       .transportError m₄] =
      ⟨.error ⟨.transport m₄, false⟩, 4, [1000, 2000, 3000]⟩ :=
  fun _ _ _ _ _ _ => ⟨rfl, rfl⟩

/-- C3 counterexample: `"a:b"` contains no `=`, yet
`normalizeSessionInput` returns `"b"`, not the string unchanged — the
`identifier:value` colon shape is matched before the bare-token check. -/
theorem C3_counterexample :
    jsIncludes "a:b" "=" = false ∧
    normalizeSessionInput "jimeng" "a:b" ≠ "a:b" ∧
    normalizeSessionInput "jimeng" "a:b" = "b" :=
  ⟨rfl, by decide, rfl⟩

/-- C3 (amended): for every platform key and every credential string
whose trimmed form contains no `=` and does not match the
`identifier:value` colon shape, `normalizeSessionInput` returns the
trimmed string (hence the string itself when it carries no surrounding
whitespace). -/
theorem C3_bare_token_identity (platformKey s : String)
    (h1 : colonCapture (jsTrim s) = none)
    (h2 : jsIncludes (jsTrim s) "=" = false) :
    normalizeSessionInput platformKey s = jsTrim s :=
  normalize_bare platformKey s h1 h2

theorem C3_witness :
    colonCapture (jsTrim "token123") = none ∧
    jsIncludes (jsTrim "token123") "=" = false ∧
    normalizeSessionInput "jimeng" "token123" = jsTrim "token123" :=
  ⟨rfl, rfl, C3_bare_token_identity "jimeng" "token123" rfl rfl⟩

/-- C4 counterexample: `"x:y; sessionid=abc"` parses to a cookie map
containing the jimeng top-priority key `sessionid` with value `"abc"`,
yet `normalizeSessionInput` returns `"y; sessionid=abc"`: the whole
string matches the `identifier:value` colon shape, which preempts
cookie parsing. -/
theorem C4_counterexample :
    (SESSION_TOKEN_COOKIE_KEYS "jimeng").head? = some "sessionid" ∧
    mapGet (parseCookieString (jsTrim "x:y; sessionid=abc")) "sessionid" = some "abc" ∧
    normalizeSessionInput "jimeng" "x:y; sessionid=abc" = "y; sessionid=abc" ∧
    normalizeSessionInput "jimeng" "x:y; sessionid=abc" ≠ "abc" :=
  ⟨rfl, rfl, rfl, by decide⟩

/-- C4 (amended): for every cookie-header credential string that
contains `=`, does not match the `identifier:value` colon shape, and
whose parsed pairs include the platform's highest-priority candidate
cookie name, `normalizeSessionInput` returns exactly that key's parsed
value — independent of fragment ordering and of whitespace around
fragments, keys, or values, since the hypothesis quantifies over every
string parsing to that map entry. -/
theorem C4_top_candidate_value (platformKey s v k : String)
    (hk : (SESSION_TOKEN_COOKIE_KEYS platformKey).head? = some k)
    (h1 : colonCapture (jsTrim s) = none)
    (h2 : jsIncludes (jsTrim s) "=" = true)
    (h3 : mapGet (parseCookieString (jsTrim s)) k = some v) :
    normalizeSessionInput platformKey s = v := by
  have hne : jsTrim s ≠ "" := by
    intro h
    rw [h] at h2
    exact absurd h2 (by decide)
  have hv : v ≠ "" := (parseCookie_mem (mapGet_mem h3)).2
  obtain ⟨rest, hrest⟩ : ∃ rest, SESSION_TOKEN_COOKIE_KEYS platformKey = k :: rest := by
    cases hl : SESSION_TOKEN_COOKIE_KEYS platformKey with
    | nil => rw [hl] at hk; simp at hk
    | cons a t =>
      rw [hl] at hk
      rw [List.head?_cons, Option.some_inj] at hk
      exact ⟨t, by rw [hk]⟩
  unfold normalizeSessionInput
  dsimp only
  rw [if_neg hne, h1, h2, hrest, firstCandidateToken_head rest h3 hv]
  rfl

theorem C4_witness :
    (SESSION_TOKEN_COOKIE_KEYS "jimeng").head? = some "sessionid" ∧
    colonCapture (jsTrim "foo=bar; sessionid=abc123") = none ∧
    jsIncludes (jsTrim "foo=bar; sessionid=abc123") "=" = true ∧
    mapGet (parseCookieString (jsTrim "foo=bar; sessionid=abc123")) "sessionid" =
      some "abc123" ∧
    normalizeSessionInput "jimeng" "foo=bar; sessionid=abc123" = "abc123" :=
  ⟨rfl, rfl, rfl, rfl,
    C4_top_candidate_value "jimeng" "foo=bar; sessionid=abc123" "abc123" "sessionid"
      rfl rfl rfl rfl⟩

/-- C5 counterexample: normalization is not idempotent:
`normalizeSessionInput "jimeng" "a:b:c" = "b:c"`, but re-normalizing
`"b:c"` extracts `"c"` via the colon shape. -/
theorem C5_counterexample :
    normalizeSessionInput "jimeng" (normalizeSessionInput "jimeng" "a:b:c") ≠
      normalizeSessionInput "jimeng" "a:b:c" := by
  decide

/-- C5 (amended): re-normalization is the identity on every canonical
output that contains no `=` and does not match the `identifier:value`
colon shape (in particular on ordinary alphanumeric session tokens);
outputs that still match an extraction shape are re-extracted. -/
theorem C5_renormalize_canonical (platformKey s : String)
    (h1 : colonCapture (normalizeSessionInput platformKey s) = none)
    (h2 : jsIncludes (normalizeSessionInput platformKey s) "=" = false) :
    normalizeSessionInput platformKey (normalizeSessionInput platformKey s) =
      normalizeSessionInput platformKey s := by
  have ht := normalize_trimmed platformKey s
  have hb := normalize_bare platformKey (normalizeSessionInput platformKey s)
    (by rw [ht]; exact h1) (by rw [ht]; exact h2)
  rw [hb, ht]

theorem C5_witness :
    colonCapture (normalizeSessionInput "jimeng" "tok") = none ∧
    jsIncludes (normalizeSessionInput "jimeng" "tok") "=" = false ∧
    normalizeSessionInput "jimeng" (normalizeSessionInput "jimeng" "tok") =
      normalizeSessionInput "jimeng" "tok" :=
  ⟨rfl, rfl, C5_renormalize_canonical "jimeng" "tok" rfl rfl⟩

/-- When the upper-cased method is not `POST`, the payload never enters
the signature computation (the source guards the payload hash with
`method.toUpperCase() === 'POST' && payload`). -/
theorem createAWSSignature_payload_irrelevant (method : String)
    (h : jsToUpper method ≠ "POST") (url : ParsedUrl)
    (xAmzDate ak sk st p₁ p₂ : String) :
    createAWSSignature method url xAmzDate ak sk st p₁ =
    createAWSSignature method url xAmzDate ak sk st p₂ := by
  unfold createAWSSignature
  dsimp only
  rw [if_neg (show ¬(jsToUpper method = "POST" ∧ p₁ ≠ "") from fun hc => h hc.1),
      if_neg (show ¬(jsToUpper method = "POST" ∧ p₂ ≠ "") from fun hc => h hc.1)]

/-- C6 counterexample: two `GET` signing calls that differ only in the
payload yield the identical authorization string, refuting "changing
the payload changes the resulting signature" as universally stated. -/
theorem C6_counterexample :
    createAWSSignature "GET" ⟨"/path", [("a", "1")]⟩ "20240101T000000Z"
      "AKID" "SECRET" "TOKEN" "payloadA" =
    createAWSSignature "GET" ⟨"/path", [("a", "1")]⟩ "20240101T000000Z"
      "AKID" "SECRET" "TOKEN" "payloadB" :=
  createAWSSignature_payload_irrelevant "GET" (by decide) ⟨"/path", [("a", "1")]⟩
    "20240101T000000Z" "AKID" "SECRET" "TOKEN" "payloadA" "payloadB"

/-- C6 (amended): `createAWSSignature` is deterministic — identical
inputs always yield the identical authorization string — and the
payload participates in the signature only for `POST` requests with a
nonempty payload: for every non-`POST` method the authorization string
is entirely independent of the payload. -/
theorem C6_deterministic_payload_scope :
    (∀ (method : String) (url : ParsedUrl) (xAmzDate ak sk st p : String),
      createAWSSignature method url xAmzDate ak sk st p =
      createAWSSignature method url xAmzDate ak sk st p) ∧
    (∀ (method : String) (url : ParsedUrl) (xAmzDate ak sk st p₁ p₂ : String),
      jsToUpper method ≠ "POST" →
      createAWSSignature method url xAmzDate ak sk st p₁ =
      createAWSSignature method url xAmzDate ak sk st p₂) :=
  ⟨fun _ _ _ _ _ _ _ => rfl,
   fun method url xad ak sk st p₁ p₂ h =>
     createAWSSignature_payload_irrelevant method h url xad ak sk st p₁ p₂⟩

theorem C6_witness :
    jsToUpper "PUT" ≠ "POST" ∧
    createAWSSignature "PUT" ⟨"/obj", []⟩ "20240202T000000Z" "A" "S" "" "x" =
    createAWSSignature "PUT" ⟨"/obj", []⟩ "20240202T000000Z" "A" "S" "" "y" :=
  ⟨by decide,
   C6_deterministic_payload_scope.2 "PUT" ⟨"/obj", []⟩ "20240202T000000Z"
     "A" "S" "" "x" "y" (by decide)⟩

/-- C7: polling an unknown id answers the 404 not-found body and
schedules nothing; polling a known job answers exactly one of
processing/done/error according to its status, and a poll that observes
a terminal status schedules the job's deletion 300000 ms (300 s) after
that observation. -/
theorem C7_poll_contract :
    ∀ (tasks : List (String × Task)) (taskId : String) (now : Nat),
    (lookupTask tasks taskId = none →
      getTaskHandler tasks taskId now = ⟨.notFound, none⟩) ∧
    (∀ t, lookupTask tasks taskId = some t →
      ((t.status = .processing ∧
         getTaskHandler tasks taskId now =
           ⟨.processing ((now - t.startTime) / 1000) t.progress, none⟩) ∨
       (t.status = .done ∧
         getTaskHandler tasks taskId now =
           ⟨.done ((now - t.startTime) / 1000) t.result, some (t.id, 300000)⟩) ∨
       (t.status = .error ∧
         getTaskHandler tasks taskId now =
           ⟨.error ((now - t.startTime) / 1000) t.errorMsg, some (t.id, 300000)⟩))) := by
  intro tasks taskId now
  constructor
  · intro h
    rw [getTaskHandler, h]
  · intro t ht
    cases hs : t.status with
    | processing => exact Or.inl ⟨rfl, by rw [getTaskHandler, ht]; dsimp only; rw [hs]⟩
    | done => exact Or.inr (Or.inl ⟨rfl, by rw [getTaskHandler, ht]; dsimp only; rw [hs]⟩)
    | error => exact Or.inr (Or.inr ⟨rfl, by rw [getTaskHandler, ht]; dsimp only; rw [hs]⟩)

theorem C7_witness :
    getTaskHandler [] "missing" 0 = ⟨.notFound, none⟩ ∧
    ((Task.mk "t1" .done "" 1000 (some "R") none).status = .processing ∧
      getTaskHandler [("t1", ⟨"t1", .done, "", 1000, some "R", none⟩)] "t1" 61000 =
        ⟨.processing 60 "", none⟩ ∨
     ((Task.mk "t1" .done "" 1000 (some "R") none).status = .done ∧
      getTaskHandler [("t1", ⟨"t1", .done, "", 1000, some "R", none⟩)] "t1" 61000 =
        ⟨.done 60 (some "R"), some ("t1", 300000)⟩) ∨
     ((Task.mk "t1" .done "" 1000 (some "R") none).status = .error ∧
      getTaskHandler [("t1", ⟨"t1", .done, "", 1000, some "R", none⟩)] "t1" 61000 =
        ⟨.error 60 none, some ("t1", 300000)⟩)) :=
  ⟨(C7_poll_contract [] "missing" 0).1 rfl,
   (C7_poll_contract [("t1", ⟨"t1", .done, "", 1000, some "R", none⟩)] "t1" 61000).2
     ⟨"t1", .done, "", 1000, some "R", none⟩ rfl⟩

/-- C8: a first-attempt target/context-closed evaluation failure makes
the pool discard the browser handle and all cached sessions
(`recreateBrowser`), launch the browser exactly once more, and retry the
operation once; the retried attempt's outcome is final — a success is
returned and a second failure propagates with no further recreation. -/
theorem C8_target_closed_recovery :
    ∀ (cfg : PlatformConfig) (key : String) (st : PoolState) (g : Nat)
      (m₁ m₂ : String) (status : Nat) (ct body j : String),
    st.browser = some g →
    isTargetClosedError m₁ = true →
    jsIncludes m₁ "Failed to fetch" = false →
    jsIncludes m₂ "Failed to fetch" = false →
    (browserFetch cfg key [.thrown m₁, .resolved status ct body (some j)] st =
      ⟨.ok j, ⟨some (st.launches + 1), st.launches + 1, [key]⟩, 1⟩) ∧
    (browserFetch cfg key [.thrown m₁, .thrown m₂] st =
      ⟨.error (.propagated m₂), ⟨some (st.launches + 1), st.launches + 1, [key]⟩, 1⟩) := by
  intro cfg key st g m₁ m₂ status ct body j hb h₁ hf₁ hf₂
  constructor <;>
    (simp [browserFetch, browserFetchLoop, getSessionState, ensureBrowser,
       recreateBrowser, hb, h₁, hf₁, hf₂]
     split <;> rfl)

theorem C8_witness :
    isTargetClosedError "Target page, context or browser has been closed" = true ∧
    browserFetch jimengConfig "k"
      [.thrown "Target page, context or browser has been closed",
       .resolved 200 "application/json" "raw" (some "RESULT")] ⟨some 1, 1, []⟩ =
      ⟨.ok "RESULT", ⟨some 2, 2, ["k"]⟩, 1⟩ :=
  ⟨by decide,
   (C8_target_closed_recovery jimengConfig "k" ⟨some 1, 1, []⟩ 1
      "Target page, context or browser has been closed" "x" 200
      "application/json" "raw" "RESULT" rfl (by decide) (by decide) (by decide)).1⟩

/-- C9: operations on one session key — the composite
`getSessionCacheKey` of platform key, session id and raw cookie header —
are serialized FIFO by the per-key promise chain: in every valid trace,
operation `i` starts before it finishes and finishes before operation
`j > i` starts, so no two evaluations on one key ever overlap; and a
valid trace may overlap operations on two distinct keys. -/
theorem C9_per_key_serialization :
    (∀ (tr : List LockEvent) (platformKey sessionId rawCookieHeader : String)
       (i j pi qi pj : Nat),
      validTrace tr = true → i < j →
      tr[pi]? = some (.start (getSessionCacheKey sessionId platformKey rawCookieHeader) i) →
      tr[qi]? = some (.finish (getSessionCacheKey sessionId platformKey rawCookieHeader) i) →
      tr[pj]? = some (.start (getSessionCacheKey sessionId platformKey rawCookieHeader) j) →
      pi < qi ∧ qi < pj) ∧
    validTrace
      [.start (getSessionCacheKey "sidA" "jimeng" "") 0,
       .start (getSessionCacheKey "sidB" "jimeng" "") 0,
       .finish (getSessionCacheKey "sidB" "jimeng" "") 0,
       .finish (getSessionCacheKey "sidA" "jimeng" "") 0] = true := by
  constructor
  · intro tr pk sid rch i j pi qi pj hv hij hpi hqi hpj
    have hser := lock_serializes hv hij hpi hqi hpj
    obtain ⟨p, hp, hps⟩ := start_before_finish hv hqi
    have hpu := start_unique hv hps hpi
    exact ⟨by omega, hser⟩
  · decide

theorem C9_witness :
    validTrace
      [.start (getSessionCacheKey "sid" "jimeng" "") 0,
       .finish (getSessionCacheKey "sid" "jimeng" "") 0,
       .start (getSessionCacheKey "sid" "jimeng" "") 1,
       .finish (getSessionCacheKey "sid" "jimeng" "") 1] = true ∧
    (0 < 1 ∧ 1 < 2) :=
  ⟨by decide,
   C9_per_key_serialization.1
     [.start (getSessionCacheKey "sid" "jimeng" "") 0,
      .finish (getSessionCacheKey "sid" "jimeng" "") 0,
      .start (getSessionCacheKey "sid" "jimeng" "") 1,
      .finish (getSessionCacheKey "sid" "jimeng" "") 1]
     "jimeng" "sid" "" 0 1 0 1 2 (by decide) (by decide) rfl rfl rfl⟩

theorem lookupTask_mem_keys {m : List (String × Task)} {id : String} {t : Task}
    (h : lookupTask m id = some t) : id ∈ m.map Prod.fst := by
  induction m with
  | nil => simp [lookupTask] at h
  | cons hd rest ih =>
    rw [lookupTask] at h
    split at h
    · rename_i hk
      exact List.mem_map.2 ⟨hd, List.mem_cons_self _ _, hk⟩
    · exact List.mem_cons.2 (Or.inr (ih h))

theorem lookupTask_none_of_not_mem {m : List (String × Task)} {id : String}
    (h : id ∉ m.map Prod.fst) : lookupTask m id = none := by
  induction m with
  | nil => rfl
  | cons hd rest ih =>
    rw [lookupTask]
    rw [if_neg]
    · exact ih fun hm => h (List.mem_cons.2 (Or.inr hm))
    · intro hk
      exact h (List.mem_map.2 ⟨hd, List.mem_cons_self _ _, hk⟩)

theorem lookupTask_sweep_none {tasks : List (String × Task)} {id : String}
    {t : Task} {now : Nat} (hnd : (tasks.map Prod.fst).Nodup)
    (hl : lookupTask tasks id = some t)
    (hold : now - t.startTime > TASK_MAX_AGE_MS) :
    lookupTask (sweepTasks tasks now) id = none := by
  induction tasks with
  | nil => simp [lookupTask] at hl
  | cons hd rest ih =>
    rw [List.map_cons, List.nodup_cons] at hnd
    rw [lookupTask] at hl
    rw [sweepTasks, List.filter_cons]
    split at hl
    · rename_i hk
      rw [Option.some_inj] at hl
      subst hl
      rw [if_neg]
      · apply lookupTask_none_of_not_mem
        intro hmem
        apply hnd.1
        rw [hk]
        exact List.map_subset Prod.fst (List.filter_sublist _).subset hmem
      · intro hcon
        rw [Bool.not_eq_true', decide_eq_false_iff_not] at hcon
        exact hcon hold
    · rename_i hk
      have hrest := ih hnd.2 hl
      rw [sweepTasks] at hrest
      split
      · rw [lookupTask, if_neg hk]
        exact hrest
      · exact hrest

/-- C10: one firing of the 60-second periodic sweep deletes every task
whose age exceeds 30 minutes regardless of status — including tasks
still `processing` — and a subsequent poll of the evicted id answers
the 404 not-found response; the 30-minute registry bound is below the
45-minute default generation timeout, so a still-running generation can
outlive its registry entry. -/
theorem C10_sweep_evicts_processing :
    ∀ (tasks : List (String × Task)) (id : String) (t : Task) (now now' : Nat),
    (tasks.map Prod.fst).Nodup →
    lookupTask tasks id = some t →
    now - t.startTime > TASK_MAX_AGE_MS →
    lookupTask (sweepTasks tasks now) id = none ∧
    getTaskHandler (sweepTasks tasks now) id now' = ⟨.notFound, none⟩ ∧
    TASK_MAX_AGE_MS < DEFAULT_VIDEO_GENERATION_TIMEOUT_MS ∧
    SWEEP_INTERVAL_MS = 60000 := by
  intro tasks id t now now' hnd hl hold
  have hn := lookupTask_sweep_none hnd hl hold
  refine ⟨hn, by rw [getTaskHandler, hn], by decide, rfl⟩

theorem C10_witness :
    ([( "t1", Task.mk "t1" .processing "排队中" 0 none none )].map Prod.fst).Nodup ∧
    lookupTask [("t1", ⟨"t1", .processing, "排队中", 0, none, none⟩)] "t1" =
      some ⟨"t1", .processing, "排队中", 0, none, none⟩ ∧
    1800001 - 0 > TASK_MAX_AGE_MS ∧
    lookupTask (sweepTasks [("t1", ⟨"t1", .processing, "排队中", 0, none, none⟩)] 1800001)
      "t1" = none ∧
    getTaskHandler (sweepTasks [("t1", ⟨"t1", .processing, "排队中", 0, none, none⟩)] 1800001)
      "t1" 1800002 = ⟨.notFound, none⟩ :=
  ⟨by decide, rfl, by decide,
   (C10_sweep_evicts_processing [("t1", ⟨"t1", .processing, "排队中", 0, none, none⟩)]
      "t1" ⟨"t1", .processing, "排队中", 0, none, none⟩ 1800001 1800002
      (by decide) rfl (by decide)).1,
   (C10_sweep_evicts_processing [("t1", ⟨"t1", .processing, "排队中", 0, none, none⟩)]
      "t1" ⟨"t1", .processing, "排队中", 0, none, none⟩ 1800001 1800002
      (by decide) rfl (by decide)).2.1⟩

end Seedance
